import Mathlib

/-!
Verification of the per-connection HTTP/WebSocket protocol engine
(`HTTPServerClient.cpp`) against its natural-language specification.

The source file is shallowly embedded: the connection is a `ClientState`
record, response producers are `IResponseOperation` values whose successive
`get_data` results are pre-recorded in a `script`, and the outbound side of
the transport is the `tx` list of submitted frames.  The event handlers
(`http_event`, `websocket_event`, the transmit-buffer-empty pump) and the
queue operations (`reply`, `reply_error`, `send_first_part`) are translated
function by function from the C++ source.  Two history fields (`startedOps`,
`handlerCalls` / `wsHandlerCalls`) record, respectively, the order in which
queued operations are moved into `current_operation` and the calls made to
the external request / frame handlers; they mirror observable events of the
source and carry no other behaviour.
-/

/-- The result of one `IResponseOperation::get_data` call
(`ResponseStatus` in the source). -/
inductive ResponseStatus
  | Error
  | EndOfData
  | HasMoreData
  | LastData
deriving DecidableEq, Repr

/-- Connection protocol mode (`HTTPServerClient::Mode`). -/
inductive Mode
  | HTTP
  | Websocket
deriving DecidableEq, Repr

/-- Response headers: an association of header name to value. -/
abbrev Headers := List (String × String)

/-- Modelled from the spec: `IResponseOperation::set_header` (the response
operation interface is outside the excerpted core); it stores the value
under the name, replacing any previous value for that name. -/
def set_header (hs : Headers) (k v : String) : Headers :=
  if hs.any (fun p => p.1 == k) then
    hs.map (fun p => if p.1 = k then (k, v) else p)
  else hs ++ [(k, v)]

/-- Modelled from the spec: `IResponseOperation::add_header`; the spec only
says the engine attaches the header to the producer, so it is modelled the
same way as `set_header`. -/
def add_header (hs : Headers) (k v : String) : Headers :=
  set_header hs k v

/-- Look a header name up (first binding wins; `set_header` keeps names
unique so this is the map lookup of the source). -/
def headerLookup (hs : Headers) (k : String) : Option String :=
  (hs.find? (fun p => p.1 == k)).map (fun p => p.2)

/-- A response producer (`IResponseOperation`): its response code, header
set, and the pre-recorded sequence of `get_data` results (status plus the
bytes placed into the caller's buffer).  `id` identifies the producer so
that send order is observable. -/
structure IResponseOperation where
  id : Nat
  code : Nat
  headers : Headers
  script : List (ResponseStatus × List Nat)
deriving DecidableEq, Repr

/-- One `get_data` call: returns the status, the bytes written into the
output buffer, and the producer with that chunk consumed.  A producer with
an exhausted script keeps reporting `EndOfData` with no bytes. -/
def getData (op : IResponseOperation) : (ResponseStatus × List Nat) × IResponseOperation :=
  match op.script with
  | [] => ((ResponseStatus.EndOfData, []), op)
  | c :: rest => (c, { op with script := rest })

/-- An outbound frame handed to the transport's tx buffer (`HTTPPacket`):
either a first-chunk HTTP response frame (status code, protocol version,
headers, body) or a raw data frame (body bytes only). -/
inductive HTTPPacket
  | response (code : Nat) (version : String) (headers : Headers) (body : List Nat)
  | data (body : List Nat)
deriving DecidableEq, Repr

/-- Hex digit value used by percent-decoding. -/
def hexVal (c : Char) : Option Nat :=
  if '0' ≤ c ∧ c ≤ '9' then some (c.toNat - '0'.toNat)
  else if 'a' ≤ c ∧ c ≤ 'f' then some (c.toNat - 'a'.toNat + 10)
  else if 'A' ≤ c ∧ c ≤ 'F' then some (c.toNat - 'A'.toNat + 10)
  else none

/-- Modelled from the spec: `URLEncoding::decode` (the encoder lives outside
the excerpted core).  Percent-decodes `%XX` escapes and fails (returns
`none`) on a malformed escape sequence: a `%` followed by fewer than two
characters or by a non-hex-digit. -/
def urlDecode : List Char → Option (List Char)
  | [] => some []
  | c :: rest =>
    if c == '%' then
      match rest with
      | a :: b :: rest2 =>
        match hexVal a, hexVal b with
        | some ha, some hb => (urlDecode rest2).map (fun d => Char.ofNat (16 * ha + hb) :: d)
        | _, _ => none
      | _ => none
    else
      (urlDecode rest).map (fun d => c :: d)

/-- Modelled from the spec: the in-place range decode
`encoding.decode(url, pos, url.end())` whose boolean result the source
ignores; on success the range is replaced by its decoded text, on failure
it is left as it was. -/
def inPlaceDecode (l : List Char) : List Char :=
  match urlDecode l with
  | some d => d
  | none => l

/-- Decoded query parameters (`request_parameters`): an association of
decoded key to decoded value. -/
abbrev Params := List (List Char × List Char)

/-- `request_parameters[key] = value` on a `std::map`: replaces the value
when the key is present, otherwise appends the binding. -/
def insertParam (m : Params) (k v : List Char) : Params :=
  if m.any (fun p => p.1 == k) then
    m.map (fun p => if p.1 = k then (k, v) else p)
  else m ++ [(k, v)]

/-- Query-parameter lookup. -/
def paramLookup (m : Params) (k : List Char) : Option (List Char) :=
  (m.find? (fun p => p.1 == k)).map (fun p => p.2)

/-- Whether a character occurs in the list (`std::find(...) != end`). -/
def hasChar (l : List Char) (c : Char) : Bool :=
  l.any (fun x => x == c)

/-- The parameter-extraction loop of `separate_request_parameters`: while
the remainder holds an `=`, take everything before the first `=` as the
key, everything after it up to the next `&` (searched from the `=`) or the
end as the value, record the pair, and continue after that `&`.  A
remainder with no `=` is discarded.  The fuel argument only bounds the
recursion; every iteration consumes at least the `=`, so `length + 1` fuel
is never exhausted. -/
def paramLoopF : Nat → List Char → Params → Params
  | 0, _, m => m
  | fuel + 1, l, m =>
    if hasChar l '=' then
      let key := l.takeWhile (fun c => !(c == '='))
      let rest := (l.dropWhile (fun c => !(c == '='))).tail
      let value := rest.takeWhile (fun c => !(c == '&'))
      let rest3 := (rest.dropWhile (fun c => !(c == '&'))).tail
      paramLoopF fuel rest3 (insertParam m key value)
    else m

/-- `HTTPServerClient::separate_request_parameters`: clears the parameters;
when the url holds a `?`, percent-decodes the tail starting at the `?` in
place, runs the extraction loop on the decoded text after the `?`, and
finally erases everything from the first `?` onward.  Returns the remaining
url and the extracted parameters. -/
def separate_request_parameters (url : List Char) : List Char × Params :=
  if hasChar url '?' then
    let front := url.takeWhile (fun c => !(c == '?'))
    let qpart := url.dropWhile (fun c => !(c == '?'))
    let decoded := inPlaceDecode qpart
    let url2 := front ++ decoded
    let params := paramLoopF (decoded.tail.length + 1) decoded.tail []
    (url2.takeWhile (fun c => !(c == '?')), params)
  else (url, [])

/-- `HTTPServerClient::parse_url`: separates the query parameters, then
percent-decodes the remaining path; `none` models the decode failure the
caller treats as a dropped fragment. -/
def parse_url (raw_url : List Char) : Option (List Char) × Params :=
  let sp := separate_request_parameters raw_url
  (urlDecode sp.1, sp.2)

/-- The closed set of recognised HTTP methods (`HTTPMethod`). -/
inductive HTTPMethod
  | GET
  | POST
  | PUT
  | DELETE
  | HEAD
deriving DecidableEq, Repr

/-- One call the engine makes into the attached Request Context
(`context->handle(...)` in `http_event`): the translated method, the
decoded url, the request headers and parameters, the raw body fragment,
the per-request MIME-context generation, and the fragment flags. -/
structure HandlerCall where
  method : HTTPMethod
  url : List Char
  headers : Headers
  parameters : Params
  content : List Nat
  mime : Nat
  first_fragment : Bool
  last_fragment : Bool
deriving DecidableEq, Repr

/-- An inbound packet (`HTTPProtocol::packet_type`): continuation flags,
parsed headers, the raw request target and method string, the body bytes
(`get_buffer()`), and—read only in WebSocket mode—the numeric opcode
(`ws_control_code()`) and the frame payload (`data()`). -/
structure RequestPacket where
  is_continuation : Bool
  is_continued : Bool
  headers : Headers
  request_url : List Char
  request_method : String
  buffer : List Nat
  ws_control_code : Nat
  data : List Nat
deriving DecidableEq, Repr

/-- The per-connection engine state (the fields of `HTTPServerClient` and
its observable surroundings).  `tx` records every frame submitted to the
transport's tx buffer; `closed` records a `close()` call; `receive_timeout`
is the transport's receive timeout in whole seconds; `contextAttached` and
`ws_server` model whether a Request Context / WebSocket handler is
attached; `mime` counts `mime.reset()` generations; `handlerCalls`,
`wsHandlerCalls` and `startedOps` are histories of handler invocation and
of operations moved into `current_operation`. -/
structure ClientState where
  mode : Mode
  operations : List IResponseOperation
  current_operation : Option IResponseOperation
  tx : List HTTPPacket
  closed : Bool
  receive_timeout : Nat
  contextAttached : Bool
  ws_server : Bool
  request_headers : Headers
  request_parameters : Params
  requested_url : List Char
  mime : Nat
  handlerCalls : List HandlerCall
  wsHandlerCalls : List (Bool × Bool × Bool × List Nat)
  startedOps : List Nat
deriving DecidableEq, Repr

/-- `HTTPServerClient::send_first_part`, written as a loop over the queue
it pops from: pop the front of the queue into `current_operation`, request
one chunk; on `Error` close the connection; otherwise submit the first
frame (with status line and headers in HTTP mode, a raw frame otherwise)
and, when the chunk already reported `EndOfData`, retire the operation and
continue with the next queued one. -/
def sendLoop : List IResponseOperation → ClientState → ClientState
  | [], s => s
  | op :: rest, s =>
    let s0 := { s with
      operations := rest,
      current_operation := some op,
      startedOps := s.startedOps ++ [op.id] }
    let r := getData op
    if r.1.1 = ResponseStatus.Error then
      { s0 with current_operation := some r.2, closed := true }
    else
      let frame :=
        if s0.mode = Mode.HTTP then
          HTTPPacket.response r.2.code "1.1" r.2.headers r.1.2
        else
          HTTPPacket.data r.1.2
      let s2 := { s0 with current_operation := some r.2, tx := s0.tx ++ [frame] }
      if r.1.1 = ResponseStatus.EndOfData then
        sendLoop rest { s2 with current_operation := none }
      else s2

/-- `send_first_part()` entry point: run the loop on the current queue. -/
def send_first_part (s : ClientState) : ClientState :=
  sendLoop s.operations s

/-- Modelled from the spec: response header name constant `CONNECTION`. -/
def CONNECTION : String := "Connection"

/-- Modelled from the spec: response header name constant `KEEP_ALIVE`. -/
def KEEP_ALIVE : String := "Keep-Alive"

/-- The keep-alive decoration `reply` applies before enqueueing: in HTTP
mode with a positive receive timeout, attach `Connection: keep-alive` and
`Keep-Alive: timeout=<seconds>` to the producer. -/
def with_keep_alive (s : ClientState) (response : IResponseOperation) : IResponseOperation :=
  if s.mode = Mode.HTTP ∧ 0 < s.receive_timeout then
    let hs := add_header response.headers CONNECTION "keep-alive"
    let hs := set_header hs KEEP_ALIVE ("timeout=" ++ toString s.receive_timeout)
    { response with headers := hs }
  else response

/-- `HTTPServerClient::reply`: decorate with keep-alive headers (HTTP mode,
positive timeout), insert at the front of the queue when `place_first`
else at the back, and start the pump when the connection is idle. -/
def reply (response : IResponseOperation) (place_first : Bool) (s : ClientState) : ClientState :=
  let r := with_keep_alive s response
  let s1 :=
    if place_first then { s with operations := r :: s.operations }
    else { s with operations := s.operations ++ [r] }
  if s1.current_operation = none then send_first_part s1 else s1

/-- `HTTPServerClient::reply_error`: discard the whole queue, force
`Connection: close` onto the producer, enqueue it alone, and start the
pump when idle. -/
def reply_error (response : IResponseOperation) (s : ClientState) : ClientState :=
  let r := { response with headers := add_header response.headers CONNECTION "close" }
  let s1 := { s with operations := [r] }
  if s1.current_operation = none then send_first_part s1 else s1

/-- `event(TransmitBufferEmptyEvent)`: with a current operation, request
one more chunk — `Error` closes the connection, `EndOfData` retires the
operation and immediately starts the next queued one, `HasMoreData` /
`LastData` submit the chunk as a raw data frame; with no current
operation, start the next queued one. -/
def onTransmitBufferEmpty (s : ClientState) : ClientState :=
  match s.current_operation with
  | some op =>
    let r := getData op
    if r.1.1 = ResponseStatus.Error then
      { s with current_operation := some r.2, closed := true }
    else if r.1.1 = ResponseStatus.EndOfData then
      send_first_part { s with current_operation := none }
    else
      { s with current_operation := some r.2, tx := s.tx ++ [HTTPPacket.data r.1.2] }
  | none => send_first_part s

/-- `HTTPServerClient::reset_client`: clear the queue, drop the current
operation, return to HTTP mode, detach the WebSocket handler. -/
def reset_client (s : ClientState) : ClientState :=
  { s with operations := [], current_operation := none,
           mode := Mode.HTTP, ws_server := false }

/-- Modelled from the spec: the fixed default keep-alive duration
(`DefaultKeepAlive`), in seconds. -/
def DefaultKeepAlive : Nat := 5

/-- Whether `needle` occurs as a contiguous run at the head of `hay`. -/
def leadsWith : List Char → List Char → Bool
  | [], _ => true
  | _ :: _, [] => false
  | a :: as, b :: bs => (a == b) && leadsWith as bs

/-- Whether `needle` occurs as a contiguous run anywhere in `hay`. -/
def containsRun (needle : List Char) : List Char → Bool
  | [] => leadsWith needle []
  | c :: t => leadsWith needle (c :: t) || containsRun needle t

/-- Modelled from the spec: `string_util::icontains` — case-insensitive
substring containment. -/
def icontains (hay needle : String) : Bool :=
  containsRun (needle.toList.map Char.toLower) (hay.toList.map Char.toLower)

/-- `HTTPServerClient::set_keep_alive`: when the `connection` request
header case-insensitively holds `keep-alive`, arm the transport's receive
timeout with the default keep-alive duration. -/
def set_keep_alive (s : ClientState) : ClientState :=
  match headerLookup s.request_headers "connection" with
  | some v =>
    if icontains v "keep-alive" then { s with receive_timeout := DefaultKeepAlive }
    else s
  | none => s

/-- `HTTPServerClient::translate_method`: exact, case-sensitive matching
of the method string onto the closed method set; `none` models the
`res = false` path. -/
def translate_method (m : String) : Option HTTPMethod :=
  if m = "POST" then some HTTPMethod.POST
  else if m = "GET" then some HTTPMethod.GET
  else if m = "DELETE" then some HTTPMethod.DELETE
  else if m = "HEAD" then some HTTPMethod.HEAD
  else if m = "PUT" then some HTTPMethod.PUT
  else none

/-- Modelled from the spec: the `StringResponse` carrying
`ResponseCode::Method_Not_Allowed` (405) and no body that `http_event`
enqueues for an unsupported method. -/
def methodNotAllowedResponse : IResponseOperation :=
  { id := 405, code := 405, headers := [],
    script := [(ResponseStatus.LastData, [])] }

/-- The first-fragment block of `http_event`: replace the request headers
with the packet's, extract and parse the request target (query separation,
percent-decoding), evaluate keep-alive, and reset the MIME context.  The
boolean is `parse_url`'s success result. -/
def processFirstPacket (packet : RequestPacket) (s : ClientState) : ClientState × Bool :=
  let s1 := { s with request_headers := packet.headers }
  let sp := separate_request_parameters packet.request_url
  let s2 := { s1 with request_parameters := sp.2 }
  let s3 :=
    match urlDecode sp.1 with
    | some dec => ({ s2 with requested_url := dec }, true)
    | none => ({ s2 with requested_url := sp.1 }, false)
  let s4 := set_keep_alive s3.1
  ({ s4 with mime := s4.mime + 1 }, s3.2)

/-- The head of `http_event`: a continuation fragment leaves the request
state alone (`res` stays true), a first fragment runs
`processFirstPacket`. -/
def firstPacketStep (packet : RequestPacket) (s : ClientState) : ClientState × Bool :=
  if packet.is_continuation then (s, true) else processFirstPacket packet s

/-- `HTTPServerClient::http_event`: on a readable packet, process the first
fragment if any; when parsing succeeded and a Request Context is attached,
either invoke it (supported method) or enqueue a 405 response (unsupported
method); otherwise do nothing further. -/
def http_event (pkt : Option RequestPacket) (s : ClientState) : ClientState :=
  match pkt with
  | none => s
  | some packet =>
    let fps := firstPacketStep packet s
    if fps.2 then
      if fps.1.contextAttached then
        match translate_method packet.request_method with
        | some m =>
          { fps.1 with handlerCalls := fps.1.handlerCalls ++
              [{ method := m,
                 url := fps.1.requested_url,
                 headers := fps.1.request_headers,
                 parameters := fps.1.request_parameters,
                 content := packet.buffer,
                 mime := fps.1.mime,
                 first_fragment := !packet.is_continuation,
                 last_fragment := !packet.is_continued }] }
        | none => reply methodNotAllowedResponse false fps.1
      else fps.1
    else fps.1

/-- Modelled from the spec: the WebSocket opcode set, with the RFC 6455
numeric values; control opcodes are numerically at or above `Close`. -/
inductive OpCode
  | Continuation
  | Text
  | Binary
  | Close
  | Ping
  | Pong
deriving DecidableEq, Repr

/-- Numeric value of a WebSocket opcode. -/
def OpCode.code : OpCode → Nat
  | OpCode.Continuation => 0
  | OpCode.Text => 1
  | OpCode.Binary => 2
  | OpCode.Close => 8
  | OpCode.Ping => 9
  | OpCode.Pong => 10

/-- Modelled from the spec: a `WSResponse` control reply producer for the
given opcode — a single-frame response with no headers. -/
def WSResponse (op : OpCode) : IResponseOperation :=
  { id := 100 + op.code, code := op.code, headers := [],
    script := [(ResponseStatus.LastData, [])] }

/-- `HTTPServerClient::websocket_event`: a control opcode (numerically at
or above `Close`) either closes the connection (`Close`), enqueues a Pong
reply with front priority (`Ping`), or is ignored; a data opcode is
forwarded to the attached WebSocket handler (fragment flags, text flag,
payload) and dropped when none is attached. -/
def websocket_event (pkt : Option RequestPacket) (s : ClientState) : ClientState :=
  match pkt with
  | none => s
  | some packet =>
    let ws_op := packet.ws_control_code
    if OpCode.Close.code ≤ ws_op then
      if ws_op = OpCode.Close.code then { s with closed := true }
      else if ws_op = OpCode.Ping.code then reply (WSResponse OpCode.Pong) true s
      else s
    else
      if s.ws_server then
        { s with wsHandlerCalls := s.wsHandlerCalls ++
            [(!packet.is_continuation, !packet.is_continued,
              packet.ws_control_code == OpCode.Text.code, packet.data)] }
      else s

/-- `event(DataAvailableEvent)`: route on the protocol mode. -/
def onDataAvailable (pkt : Option RequestPacket) (s : ClientState) : ClientState :=
  if s.mode = Mode.HTTP then http_event pkt s else websocket_event pkt s

/-- Run the transmit-buffer-empty pump `n` times. -/
def pumpN : Nat → ClientState → ClientState
  | 0, s => s
  | n + 1, s => pumpN n (onTransmitBufferEmpty s)

/-- Accumulator-based split on a separator character (used only to state
the spec's reading of the query splitting). -/
def splitAmpAux (cur : List Char) : List Char → List (List Char)
  | [] => [cur.reverse]
  | c :: t => if c == '&' then cur.reverse :: splitAmpAux [] t else splitAmpAux (c :: cur) t

/-- Split a decoded query string on every ampersand. -/
def splitAmp (l : List Char) : List (List Char) :=
  splitAmpAux [] l

/-- The spec's treatment of one candidate pair: split it at its first `=`
into key and value and record it, or discard it when it has no `=`. -/
def querySegStep (m : Params) (seg : List Char) : Params :=
  if hasChar seg '=' then
    insertParam m (seg.takeWhile (fun c => !(c == '=')))
      ((seg.dropWhile (fun c => !(c == '='))).tail)
  else m

/-- Follows the claim text, not the source: split the decoded query on `&`
into candidate pairs, split each pair on its first `=` into key and value,
assign with last-write-wins, discard pairs with no `=`. -/
def specQueryParams (q : List Char) : Params :=
  (splitAmp q).foldl querySegStep []

theorem hasChar_iff_mem (l : List Char) (c : Char) : hasChar l c = true ↔ c ∈ l := by
  unfold hasChar
  rw [List.any_eq_true]
  constructor
  · rintro ⟨x, hx, he⟩
    rw [beq_iff_eq] at he
    rwa [he] at hx
  · intro hc
    exact ⟨c, hc, by simp⟩

theorem takeWhile_all {p : Char → Bool} : ∀ {l : List Char},
    (∀ x ∈ l, p x = true) → l.takeWhile p = l := by
  intro l
  induction l with
  | nil => intro _; rfl
  | cons a t ih =>
    intro h
    rw [List.takeWhile_cons_of_pos (h a (by simp))]
    rw [ih (fun x hx => h x (by simp [hx]))]

theorem dropWhile_all {p : Char → Bool} : ∀ {l : List Char},
    (∀ x ∈ l, p x = true) → l.dropWhile p = [] := by
  intro l
  induction l with
  | nil => intro _; rfl
  | cons a t ih =>
    intro h
    rw [List.dropWhile_cons_of_pos (h a (by simp))]
    exact ih (fun x hx => h x (by simp [hx]))

theorem takeWhile_append_all {p : Char → Bool} : ∀ {a b : List Char},
    (∀ x ∈ a, p x = true) → (a ++ b).takeWhile p = a ++ b.takeWhile p := by
  intro a
  induction a with
  | nil => intro b _; rfl
  | cons x t ih =>
    intro b h
    rw [List.cons_append, List.takeWhile_cons_of_pos (h x (by simp))]
    rw [ih (fun y hy => h y (by simp [hy])), List.cons_append]

theorem dropWhile_append_all {p : Char → Bool} : ∀ {a b : List Char},
    (∀ x ∈ a, p x = true) → (a ++ b).dropWhile p = b.dropWhile p := by
  intro a
  induction a with
  | nil => intro b _; rfl
  | cons x t ih =>
    intro b h
    rw [List.cons_append, List.dropWhile_cons_of_pos (h x (by simp))]
    exact ih (fun y hy => h y (by simp [hy]))

theorem takeWhile_append_hit {p : Char → Bool} : ∀ {a b : List Char},
    (∃ x ∈ a, p x = false) → (a ++ b).takeWhile p = a.takeWhile p := by
  intro a
  induction a with
  | nil => rintro b ⟨x, hx, _⟩; cases hx
  | cons y t ih =>
    rintro b ⟨x, hx, hpx⟩
    by_cases hy : p y = true
    · rw [List.cons_append, List.takeWhile_cons_of_pos hy,
        List.takeWhile_cons_of_pos hy]
      have hxt : x ∈ t := by
        rcases List.mem_cons.mp hx with h | h
        · subst h; rw [hy] at hpx; cases hpx
        · exact h
      rw [ih ⟨x, hxt, hpx⟩]
    · have hy2 : ¬ p y := by simpa using hy
      rw [List.cons_append, List.takeWhile_cons_of_neg hy2,
        List.takeWhile_cons_of_neg hy2]

theorem dropWhile_append_hit {p : Char → Bool} : ∀ {a b : List Char},
    (∃ x ∈ a, p x = false) → (a ++ b).dropWhile p = a.dropWhile p ++ b := by
  intro a
  induction a with
  | nil => rintro b ⟨x, hx, _⟩; cases hx
  | cons y t ih =>
    rintro b ⟨x, hx, hpx⟩
    by_cases hy : p y = true
    · rw [List.cons_append, List.dropWhile_cons_of_pos hy,
        List.dropWhile_cons_of_pos hy]
      have hxt : x ∈ t := by
        rcases List.mem_cons.mp hx with h | h
        · subst h; rw [hy] at hpx; cases hpx
        · exact h
      exact ih ⟨x, hxt, hpx⟩
    · have hy2 : ¬ p y := by simpa using hy
      rw [List.cons_append, List.dropWhile_cons_of_neg hy2,
        List.dropWhile_cons_of_neg hy2, List.cons_append]

theorem mem_takeWhile {p : Char → Bool} : ∀ {l : List Char} {x : Char},
    x ∈ l.takeWhile p → x ∈ l ∧ p x = true := by
  intro l
  induction l with
  | nil => intro x hx; cases hx
  | cons a t ih =>
    intro x hx
    by_cases ha : p a = true
    · rw [List.takeWhile_cons_of_pos ha] at hx
      rcases List.mem_cons.mp hx with h | h
      · subst h; exact ⟨by simp, ha⟩
      · obtain ⟨h1, h2⟩ := ih h
        exact ⟨by simp [h1], h2⟩
    · have ha2 : ¬ p a := by simpa using ha
      rw [List.takeWhile_cons_of_neg ha2] at hx
      cases hx

theorem dropWhile_eq_char_cons : ∀ {l : List Char} {c : Char}, c ∈ l →
    ∃ t, l.dropWhile (fun x => !(x == c)) = c :: t := by
  intro l
  induction l with
  | nil => intro c hc; cases hc
  | cons a t ih =>
    intro c hc
    by_cases hac : a = c
    · subst hac
      exact ⟨t, by rw [List.dropWhile_cons_of_neg (by simp)]⟩
    · rcases List.mem_cons.mp hc with h | h
      · exact absurd h.symm hac
      · obtain ⟨t2, ht2⟩ := ih h
        refine ⟨t2, ?_⟩
        rw [List.dropWhile_cons_of_pos (by simp [hac]), ht2]

theorem mem_dropWhile {p : Char → Bool} : ∀ {l : List Char} {x : Char},
    x ∈ l.dropWhile p → x ∈ l := by
  intro l
  induction l with
  | nil => intro x hx; cases hx
  | cons a t ih =>
    intro x hx
    by_cases ha : p a = true
    · rw [List.dropWhile_cons_of_pos ha] at hx
      exact List.mem_cons.mpr (Or.inr (ih hx))
    · rw [List.dropWhile_cons_of_neg (by simpa using ha)] at hx
      exact hx

theorem dropWhile_head_false {p : Char → Bool} : ∀ {l : List Char} {c : Char} {t : List Char},
    l.dropWhile p = c :: t → p c = false := by
  intro l
  induction l with
  | nil => intro c t h; cases h
  | cons a l2 ih =>
    intro c t h
    by_cases ha : p a = true
    · rw [List.dropWhile_cons_of_pos ha] at h
      exact ih h
    · rw [List.dropWhile_cons_of_neg (by simpa using ha)] at h
      cases h
      revert ha
      cases p a <;> simp

theorem splitAmpAux_no_amp : ∀ {a : List Char} (cur : List Char),
    (∀ x ∈ a, (x == '&') = false) → splitAmpAux cur a = [cur.reverse ++ a] := by
  intro a
  induction a with
  | nil => intro cur _; simp [splitAmpAux]
  | cons c t ih =>
    intro cur h
    have hc := h c (by simp)
    rw [splitAmpAux, if_neg (by simp [hc])]
    rw [ih (c :: cur) (fun x hx => h x (by simp [hx]))]
    simp

theorem splitAmpAux_amp : ∀ {a : List Char} (cur t : List Char),
    (∀ x ∈ a, (x == '&') = false) →
    splitAmpAux cur (a ++ '&' :: t) = (cur.reverse ++ a) :: splitAmpAux [] t := by
  intro a
  induction a with
  | nil => intro cur t _; rw [List.nil_append, splitAmpAux, if_pos (by simp)]; simp
  | cons c a2 ih =>
    intro cur t h
    have hc := h c (by simp)
    rw [List.cons_append, splitAmpAux, if_neg (by simp [hc])]
    rw [ih (c :: cur) t (fun x hx => h x (by simp [hx]))]
    simp

theorem splitAmp_no_amp {l : List Char} (h : ∀ x ∈ l, (x == '&') = false) :
    splitAmp l = [l] := by
  rw [splitAmp, splitAmpAux_no_amp [] h]
  rfl

theorem splitAmp_amp {a t : List Char} (h : ∀ x ∈ a, (x == '&') = false) :
    splitAmp (a ++ '&' :: t) = a :: splitAmp t := by
  rw [splitAmp, splitAmpAux_amp [] t h]
  rfl

theorem paramLoopF_nil : ∀ (fuel : Nat) (m : Params), paramLoopF fuel [] m = m := by
  intro fuel m
  cases fuel with
  | zero => rfl
  | succ f => rw [paramLoopF, if_neg (by simp [hasChar])]

theorem paramLoopF_spec : ∀ (fuel : Nat) (l : List Char) (m : Params),
    l.length < fuel →
    (∀ seg ∈ splitAmp l, hasChar seg '=' = true) →
    paramLoopF fuel l m = (splitAmp l).foldl querySegStep m := by
  intro fuel
  induction fuel with
  | zero => intro l m hlen _; omega
  | succ f ih =>
    intro l m hlen hseg
    have hsegA : ∀ x ∈ l.takeWhile (fun c => !(c == '&')), (x == '&') = false := by
      intro x hx
      have := (mem_takeWhile hx).2
      simpa using this
    have hl := (List.takeWhile_append_dropWhile
      (p := fun c : Char => !(c == '&')) (l := l)).symm
    cases hrest : l.dropWhile (fun c => !(c == '&')) with
    | nil =>
      rw [hrest, List.append_nil] at hl
      -- the whole remainder is a single segment
      have hsplit : splitAmp l = [l] := by
        apply splitAmp_no_amp
        intro x hx
        exact hsegA x (hl ▸ hx)
      have hseg0 : hasChar l '=' = true := hseg l (by rw [hsplit]; simp)
      have hmem : '=' ∈ l := (hasChar_iff_mem l '=').mp hseg0
      obtain ⟨v0, hv0⟩ := dropWhile_eq_char_cons (c := '=') hmem
      have hv0mem : ∀ x ∈ v0, (x == '&') = false := by
        intro x hx
        have hx2 : x ∈ l.dropWhile (fun c => !(c == '=')) := by
          rw [hv0]; simp [hx]
        exact hsegA x (hl ▸ mem_dropWhile hx2)
      have htail : (l.dropWhile (fun c => !(c == '='))).tail = v0 := by
        rw [hv0, List.tail_cons]
      have hvval : v0.takeWhile (fun c => !(c == '&')) = v0 :=
        takeWhile_all (fun x hx => by simp [hv0mem x hx])
      have hvdrop : v0.dropWhile (fun c => !(c == '&')) = [] :=
        dropWhile_all (fun x hx => by simp [hv0mem x hx])
      rw [paramLoopF, if_pos hseg0]
      simp only [htail, hvval, hvdrop, List.tail_nil]
      rw [paramLoopF_nil, hsplit]
      simp only [List.foldl_cons, List.foldl_nil, querySegStep]
      rw [if_pos hseg0, htail]
    | cons c t =>
      have hc : c = '&' := by
        have := dropWhile_head_false hrest
        simpa using this
      subst hc
      rw [hrest] at hl
      -- l = seg ++ '&' :: t with seg the first segment
      have hsplit : splitAmp l = l.takeWhile (fun c => !(c == '&')) :: splitAmp t := by
        conv_lhs => rw [hl]
        exact splitAmp_amp hsegA
      have hseg0 : hasChar (l.takeWhile (fun c => !(c == '&'))) '=' = true :=
        hseg _ (by rw [hsplit]; simp)
      have hmemseg : '=' ∈ l.takeWhile (fun c => !(c == '&')) :=
        (hasChar_iff_mem _ '=').mp hseg0
      have hmem : '=' ∈ l := (mem_takeWhile hmemseg).1
      have hC : hasChar l '=' = true := (hasChar_iff_mem l '=').mpr hmem
      obtain ⟨v0, hv0⟩ := dropWhile_eq_char_cons (c := '=') hmemseg
      have hv0mem : ∀ x ∈ v0, (x == '&') = false := by
        intro x hx
        have hx2 : x ∈ (l.takeWhile (fun c => !(c == '&'))).dropWhile
            (fun c => !(c == '=')) := by
          rw [hv0]; simp [hx]
        exact hsegA x (mem_dropWhile hx2)
      have hkey : l.takeWhile (fun c => !(c == '=')) =
          (l.takeWhile (fun c => !(c == '&'))).takeWhile (fun c => !(c == '=')) := by
        conv_lhs => rw [hl]
        exact takeWhile_append_hit ⟨'=', hmemseg, by simp⟩
      have hdrop : l.dropWhile (fun c => !(c == '=')) =
          '=' :: (v0 ++ '&' :: t) := by
        conv_lhs => rw [hl]
        rw [dropWhile_append_hit ⟨'=', hmemseg, by simp⟩, hv0, List.cons_append]
      have htail : (l.dropWhile (fun c => !(c == '='))).tail = v0 ++ '&' :: t := by
        rw [hdrop, List.tail_cons]
      have hvval : (v0 ++ '&' :: t).takeWhile (fun c => !(c == '&')) = v0 := by
        rw [takeWhile_append_all (fun x hx => by simp [hv0mem x hx])]
        rw [List.takeWhile_cons_of_neg (by simp), List.append_nil]
      have hvdrop : (v0 ++ '&' :: t).dropWhile (fun c => !(c == '&')) = '&' :: t := by
        rw [dropWhile_append_all (fun x hx => by simp [hv0mem x hx])]
        rw [List.dropWhile_cons_of_neg (by simp)]
      have hlent : t.length < f := by
        have hll : l.length =
            (l.takeWhile (fun c => !(c == '&'))).length + (t.length + 1) := by
          conv_lhs => rw [hl]
          simp [List.length_append]
        omega
      have hsegt : ∀ seg ∈ splitAmp t, hasChar seg '=' = true := by
        intro seg hs
        exact hseg seg (by rw [hsplit]; simp [hs])
      rw [paramLoopF, if_pos hC]
      simp only [htail, hvval, hvdrop, List.tail_cons]
      rw [ih t _ hlent hsegt, hsplit]
      simp only [List.foldl_cons]
      congr 1
      simp only [querySegStep]
      rw [if_pos hseg0, hv0, List.tail_cons, ← hkey]

theorem urlDecode_cons_ne {c : Char} (h : (c == '%') = false) (l : List Char) :
    urlDecode (c :: l) = (urlDecode l).map (fun d => c :: d) := by
  cases l with
  | nil => simp [urlDecode, h]
  | cons a t =>
    cases t with
    | nil => simp [urlDecode, h]
    | cons b t2 => simp [urlDecode, h]

/-- Claim C3, counterexample: on the raw target `/p?x&a=1` the claim's
split-on-`&`-then-`=` reading discards the `=`-free pair `x` and yields the
binding `a = 1`, but the code's decoder—which looks for the first `=`
before looking for an `&`—produces the single binding `x&a = 1` and no
binding for `a`; so the claim's description of the splitting is false on
this input. -/
theorem query_split_counterexample :
    paramLookup (separate_request_parameters ("/p?x&a=1".toList)).2 ("a".toList) = none ∧
    paramLookup (separate_request_parameters ("/p?x&a=1".toList)).2 ("x&a".toList) =
      some ("1".toList) ∧
    paramLookup (specQueryParams ("x&a=1".toList)) ("a".toList) = some ("1".toList) ∧
    (separate_request_parameters ("/p?x&a=1".toList)).2 ≠
      specQueryParams ("x&a=1".toList) := by
  decide

/-- Claim C3 (amended): for every raw request target containing a `?`, the
query decoder percent-decodes the substring from the `?` to the end of the
string before splitting; provided every `&`-separated candidate pair of
the decoded query contains an `=`, the splitting then agrees with the
claim: split on `&`, split each pair on its first `=`, assign with
last-write-wins (a `=`-free candidate that is not last is instead merged
into the following pair's key, which is what the counterexample forces);
and everything from the first `?` onward is erased so only the path
remains. -/
theorem query_split_amended (url query dq : List Char)
    (hq : url.dropWhile (fun c => !(c == '?')) = '?' :: query)
    (hd : urlDecode query = some dq)
    (hseg : ∀ seg ∈ splitAmp dq, hasChar seg '=' = true) :
    separate_request_parameters url =
      (url.takeWhile (fun c => !(c == '?')), specQueryParams dq) := by
  have hmem : '?' ∈ url := mem_dropWhile (by rw [hq]; simp)
  have hhc : hasChar url '?' = true := (hasChar_iff_mem _ _).mpr hmem
  have hdec : inPlaceDecode ('?' :: query) = '?' :: dq := by
    rw [inPlaceDecode, urlDecode_cons_ne (by decide), hd]
    rfl
  have hfrontmem : ∀ x ∈ url.takeWhile (fun c => !(c == '?')), (!(x == '?')) = true :=
    fun x hx => (mem_takeWhile hx).2
  have hfront : (url.takeWhile (fun c => !(c == '?')) ++ '?' :: dq).takeWhile
      (fun c => !(c == '?')) = url.takeWhile (fun c => !(c == '?')) := by
    rw [takeWhile_append_all hfrontmem, List.takeWhile_cons_of_neg (by simp),
      List.append_nil]
  rw [separate_request_parameters, if_pos hhc]
  simp only [hq, hdec, List.tail_cons, hfront]
  rw [paramLoopF_spec _ _ _ (by omega) hseg, specQueryParams]

/-- Witness for the amended claim C3 at the spec's own example target
`/path?a=1&b=two%20words`. -/
theorem query_split_amended_witness :
    (("/path?a=1&b=two%20words".toList).dropWhile (fun c => !(c == '?')) =
        '?' :: "a=1&b=two%20words".toList ∧
      urlDecode ("a=1&b=two%20words".toList) = some ("a=1&b=two words".toList) ∧
      (∀ seg ∈ splitAmp ("a=1&b=two words".toList), hasChar seg '=' = true)) ∧
    separate_request_parameters ("/path?a=1&b=two%20words".toList) =
      (("/path?a=1&b=two%20words".toList).takeWhile (fun c => !(c == '?')),
        specQueryParams ("a=1&b=two words".toList)) :=
  ⟨⟨by decide, by decide, by decide⟩,
    query_split_amended ("/path?a=1&b=two%20words".toList)
      ("a=1&b=two%20words".toList) ("a=1&b=two words".toList)
      (by decide) (by decide) (by decide)⟩

/-- Claim C2: when send_first_part dequeues a producer whose first get_data
reports EndOfData, the first frame (with status line and headers in HTTP
mode) is still submitted, the operation is retired, and the pump recurses:
two queued producers that each report EndOfData on their first chunk are
both fully sent within a single TransmitBufferEmpty event. -/
theorem immediate_completion_chain (s : ClientState) (q1 q2 : IResponseOperation)
    (d1 d2 : List Nat) (r1 r2 : List (ResponseStatus × List Nat))
    (hcur : s.current_operation = none) (hops : s.operations = [q1, q2])
    (h1 : q1.script = (ResponseStatus.EndOfData, d1) :: r1)
    (h2 : q2.script = (ResponseStatus.EndOfData, d2) :: r2) :
    onTransmitBufferEmpty s =
      { s with
        operations := [],
        current_operation := none,
        startedOps := s.startedOps ++ [q1.id, q2.id],
        tx := s.tx ++
          [(if s.mode = Mode.HTTP then
              HTTPPacket.response q1.code "1.1" q1.headers d1
            else HTTPPacket.data d1),
           (if s.mode = Mode.HTTP then
              HTTPPacket.response q2.code "1.1" q2.headers d2
            else HTTPPacket.data d2)] } := by
  cases s
  simp only at hcur hops
  subst hcur hops
  simp [onTransmitBufferEmpty, send_first_part, sendLoop, getData, h1, h2]

/-- Claim C6: a producer reporting Error — on the first chunk in
send_first_part or on a later chunk in the TransmitBufferEmpty pump —
closes the connection immediately, submits no frame for that chunk, and
starts no subsequent queued producer. -/
theorem producer_error_closes
    (s1 : ClientState) (c : IResponseOperation) (d : List Nat)
    (r : List (ResponseStatus × List Nat))
    (hcur1 : s1.current_operation = some c)
    (hsc1 : c.script = (ResponseStatus.Error, d) :: r)
    (s2 : ClientState) (q : IResponseOperation) (rest : List IResponseOperation)
    (d2 : List Nat) (r2 : List (ResponseStatus × List Nat))
    (hcur2 : s2.current_operation = none) (hops2 : s2.operations = q :: rest)
    (hsc2 : q.script = (ResponseStatus.Error, d2) :: r2) :
    (onTransmitBufferEmpty s1 =
      { s1 with current_operation := some { c with script := r }, closed := true }) ∧
    (onTransmitBufferEmpty s2 =
      { s2 with operations := rest,
                current_operation := some { q with script := r2 },
                startedOps := s2.startedOps ++ [q.id],
                closed := true }) := by
  constructor
  · cases s1
    simp only at hcur1
    subst hcur1
    simp [onTransmitBufferEmpty, getData, hsc1]
  · cases s2
    simp only at hcur2 hops2
    subst hcur2 hops2
    simp [onTransmitBufferEmpty, send_first_part, sendLoop, getData, hsc2]

/-- Claim C9: in the TransmitBufferEmpty pump with a current operation,
EndOfData discards the bytes of that get_data call (no frame is
submitted); only HasMoreData and LastData produce an outbound frame; in
send_first_part, by contrast, the first chunk is submitted even when it
reports EndOfData. -/
theorem pump_end_of_data_discard
    (s1 : ClientState) (c1 : IResponseOperation) (d1 : List Nat)
    (r1 : List (ResponseStatus × List Nat))
    (h1c : s1.current_operation = some c1) (h1q : s1.operations = [])
    (h1s : c1.script = (ResponseStatus.EndOfData, d1) :: r1)
    (s2 : ClientState) (c2 : IResponseOperation) (d2 : List Nat)
    (r2 : List (ResponseStatus × List Nat))
    (h2c : s2.current_operation = some c2)
    (h2s : c2.script = (ResponseStatus.HasMoreData, d2) :: r2)
    (s3 : ClientState) (c3 : IResponseOperation) (d3 : List Nat)
    (r3 : List (ResponseStatus × List Nat))
    (h3c : s3.current_operation = some c3)
    (h3s : c3.script = (ResponseStatus.LastData, d3) :: r3)
    (s4 : ClientState) (q : IResponseOperation) (d4 : List Nat)
    (r4 : List (ResponseStatus × List Nat))
    (h4c : s4.current_operation = none) (h4q : s4.operations = [q])
    (h4s : q.script = (ResponseStatus.EndOfData, d4) :: r4) :
    (onTransmitBufferEmpty s1 = { s1 with current_operation := none }) ∧
    (onTransmitBufferEmpty s2 =
      { s2 with current_operation := some { c2 with script := r2 },
                tx := s2.tx ++ [HTTPPacket.data d2] }) ∧
    (onTransmitBufferEmpty s3 =
      { s3 with current_operation := some { c3 with script := r3 },
                tx := s3.tx ++ [HTTPPacket.data d3] }) ∧
    (onTransmitBufferEmpty s4 =
      { s4 with operations := [], current_operation := none,
                startedOps := s4.startedOps ++ [q.id],
                tx := s4.tx ++
                  [if s4.mode = Mode.HTTP then
                     HTTPPacket.response q.code "1.1" q.headers d4
                   else HTTPPacket.data d4] }) := by
  refine ⟨?_, ?_, ?_, ?_⟩
  · cases s1
    simp only at h1c h1q
    subst h1c h1q
    simp [onTransmitBufferEmpty, send_first_part, sendLoop, getData, h1s]
  · cases s2
    simp only at h2c
    subst h2c
    simp [onTransmitBufferEmpty, getData, h2s]
  · cases s3
    simp only at h3c
    subst h3c
    simp [onTransmitBufferEmpty, getData, h3s]
  · cases s4
    simp only at h4c h4q
    subst h4c h4q
    simp [onTransmitBufferEmpty, send_first_part, sendLoop, getData, h4s]

theorem find_map_assign {k v : String} : ∀ (hs : Headers),
    hs.any (fun p => p.1 == k) = true →
    (hs.map (fun p => if p.1 = k then (k, v) else p)).find? (fun p => p.1 == k) =
      some (k, v) := by
  intro hs
  induction hs with
  | nil => intro h; cases h
  | cons a t ih =>
    intro h
    by_cases ha : a.1 = k
    · simp [List.find?, ha]
    · have ht : t.any (fun p => p.1 == k) = true := by
        simpa [List.any_cons, ha] using h
      simp only [List.map_cons, List.find?, if_neg ha]
      rw [show ((a.1 == k) = false) from by simp [ha]]
      exact ih ht

theorem find_map_assign_ne {k v k2 : String} (hne : k2 ≠ k) : ∀ (hs : Headers),
    (hs.map (fun p => if p.1 = k then (k, v) else p)).find? (fun p => p.1 == k2) =
      hs.find? (fun p => p.1 == k2) := by
  intro hs
  induction hs with
  | nil => rfl
  | cons a t ih =>
    by_cases ha : a.1 = k
    · have hk2 : (k == k2) = false := by simp [hne.symm]
      have ha2 : (a.1 == k2) = false := by simp [ha, hne.symm]
      simp only [List.map_cons, List.find?, if_pos ha, hk2, ha2]
      exact ih
    · simp only [List.map_cons, List.find?, if_neg ha]
      cases hx : (a.1 == k2) with
      | true => rfl
      | false => exact ih

theorem headerLookup_set_header_self (hs : Headers) (k v : String) :
    headerLookup (set_header hs k v) k = some v := by
  unfold set_header headerLookup
  by_cases hany : hs.any (fun p => p.1 == k) = true
  · rw [if_pos hany, find_map_assign hs hany]
    rfl
  · rw [if_neg hany]
    have hnone : hs.find? (fun p => p.1 == k) = none := by
      rw [List.find?_eq_none]
      intro x hx
      intro hcx
      exact hany (List.any_eq_true.mpr ⟨x, hx, hcx⟩)
    rw [List.find?_append, hnone]
    simp [List.find?]

theorem headerLookup_set_header_ne (hs : Headers) (k v k2 : String) (hne : k2 ≠ k) :
    headerLookup (set_header hs k v) k2 = headerLookup hs k2 := by
  unfold set_header headerLookup
  by_cases hany : hs.any (fun p => p.1 == k) = true
  · rw [if_pos hany, find_map_assign_ne hne hs]
  · rw [if_neg hany, List.find?_append]
    have h1 : ((k, v).1 == k2) = false := by simp [hne.symm]
    cases hx : hs.find? (fun p => p.1 == k2) with
    | some a => rfl
    | none => simp [List.find?, h1]

/-- Claim C8: every producer passed to reply gains Connection: keep-alive
and Keep-Alive: timeout=T headers when the mode is HTTP and the
transport's receive timeout is a positive T seconds; in WebSocket mode
neither header is added regardless of the timeout. -/
theorem keep_alive_headers (s : ClientState) (p : IResponseOperation)
    (c : IResponseOperation) (hcur : s.current_operation = some c) :
    (s.mode = Mode.HTTP → 0 < s.receive_timeout →
      headerLookup (with_keep_alive s p).headers CONNECTION = some "keep-alive" ∧
      headerLookup (with_keep_alive s p).headers KEEP_ALIVE =
        some ("timeout=" ++ toString s.receive_timeout) ∧
      (reply p false s).operations = s.operations ++ [with_keep_alive s p] ∧
      (reply p true s).operations = with_keep_alive s p :: s.operations) ∧
    (s.mode = Mode.Websocket →
      with_keep_alive s p = p ∧
      (reply p false s).operations = s.operations ++ [p] ∧
      (reply p true s).operations = p :: s.operations) := by
  constructor
  · intro hm ht
    have hwka : (with_keep_alive s p).headers =
        set_header (add_header p.headers CONNECTION "keep-alive")
          KEEP_ALIVE ("timeout=" ++ toString s.receive_timeout) := by
      rw [with_keep_alive, if_pos ⟨hm, ht⟩]
    refine ⟨?_, ?_, ?_, ?_⟩
    · rw [hwka, headerLookup_set_header_ne _ _ _ _ (by decide), add_header,
        headerLookup_set_header_self]
    · rw [hwka, headerLookup_set_header_self]
    · simp [reply, hcur]
    · simp [reply, hcur]
  · intro hm
    have hwka : with_keep_alive s p = p := by
      rw [with_keep_alive, if_neg (by simp [hm])]
    refine ⟨hwka, ?_, ?_⟩
    · simp [reply, hcur, hwka]
    · simp [reply, hcur, hwka]

/-- Claim C7: in WebSocket mode an inbound frame with opcode at or above
Close is control: Close closes the connection, Ping enqueues a Pong with
front priority (place_first = true), any other control opcode is ignored;
a data-opcode frame is forwarded to the attached frame handler with
fragment flags, a text-vs-binary flag and the payload, and silently
dropped when no handler is attached. -/
theorem websocket_dispatch (s : ClientState) (pkt : RequestPacket)
    (hmode : s.mode = Mode.Websocket)
    (c : IResponseOperation) (hcur : s.current_operation = some c) :
    (pkt.ws_control_code = OpCode.Close.code →
      onDataAvailable (some pkt) s = { s with closed := true }) ∧
    (pkt.ws_control_code = OpCode.Ping.code →
      onDataAvailable (some pkt) s = reply (WSResponse OpCode.Pong) true s ∧
      (onDataAvailable (some pkt) s).operations = WSResponse OpCode.Pong :: s.operations) ∧
    (OpCode.Close.code ≤ pkt.ws_control_code →
      pkt.ws_control_code ≠ OpCode.Close.code →
      pkt.ws_control_code ≠ OpCode.Ping.code →
      onDataAvailable (some pkt) s = s) ∧
    (pkt.ws_control_code < OpCode.Close.code → s.ws_server = true →
      onDataAvailable (some pkt) s = { s with wsHandlerCalls := s.wsHandlerCalls ++
        [(!pkt.is_continuation, !pkt.is_continued,
          pkt.ws_control_code == OpCode.Text.code, pkt.data)] }) ∧
    (pkt.ws_control_code < OpCode.Close.code → s.ws_server = false →
      onDataAvailable (some pkt) s = s) := by
  have hdisp : onDataAvailable (some pkt) s = websocket_event (some pkt) s := by
    rw [onDataAvailable, if_neg (by simp [hmode])]
  refine ⟨?_, ?_, ?_, ?_, ?_⟩
  · intro h
    rw [hdisp, websocket_event]
    simp [h, OpCode.code]
  · intro h
    constructor
    · rw [hdisp, websocket_event]
      simp [h, OpCode.code]
    · rw [hdisp, websocket_event]
      simp only [h, OpCode.code]
      rw [if_pos (by omega), if_neg (by omega)]
      simp [reply, with_keep_alive, hmode, hcur]
  · intro hle hne8 hne9
    rw [hdisp, websocket_event]
    simp only [OpCode.code] at hle hne8 hne9 ⊢
    rw [if_pos hle, if_neg hne8, if_neg hne9]
  · intro hlt hws
    rw [hdisp, websocket_event]
    simp only [OpCode.code] at hlt ⊢
    rw [if_neg (by omega), if_pos hws]
  · intro hlt hws
    rw [hdisp, websocket_event]
    simp only [OpCode.code] at hlt ⊢
    rw [if_neg (by omega), if_neg (by simp [hws])]

theorem set_keep_alive_shape (s : ClientState) :
    ∃ rt, set_keep_alive s = { s with receive_timeout := rt } := by
  unfold set_keep_alive
  split
  · split
    · exact ⟨DefaultKeepAlive, rfl⟩
    · exact ⟨s.receive_timeout, by cases s; rfl⟩
  · exact ⟨s.receive_timeout, by cases s; rfl⟩

theorem processFirstPacket_shape (packet : RequestPacket) (s : ClientState) :
    ∃ rh rp ru mi rt, (processFirstPacket packet s).1 =
      { s with request_headers := rh, request_parameters := rp,
               requested_url := ru, mime := mi, receive_timeout := rt } := by
  unfold processFirstPacket
  cases hdec : urlDecode (separate_request_parameters packet.request_url).1 with
  | some dec =>
    obtain ⟨rt, hrt⟩ := set_keep_alive_shape
      { s with request_headers := packet.headers,
               request_parameters := (separate_request_parameters packet.request_url).2,
               requested_url := dec }
    refine ⟨packet.headers, (separate_request_parameters packet.request_url).2,
      dec, s.mime + 1, rt, ?_⟩
    simp only [hdec, hrt]
  | none =>
    obtain ⟨rt, hrt⟩ := set_keep_alive_shape
      { s with request_headers := packet.headers,
               request_parameters := (separate_request_parameters packet.request_url).2,
               requested_url := (separate_request_parameters packet.request_url).1 }
    refine ⟨packet.headers, (separate_request_parameters packet.request_url).2,
      (separate_request_parameters packet.request_url).1, s.mime + 1, rt, ?_⟩
    simp only [hdec, hrt]

theorem firstPacketStep_shape (packet : RequestPacket) (s : ClientState) :
    ∃ rh rp ru mi rt, (firstPacketStep packet s).1 =
      { s with request_headers := rh, request_parameters := rp,
               requested_url := ru, mime := mi, receive_timeout := rt } := by
  unfold firstPacketStep
  by_cases h : packet.is_continuation = true
  · rw [if_pos h]
    exact ⟨s.request_headers, s.request_parameters, s.requested_url, s.mime,
      s.receive_timeout, by cases s; rfl⟩
  · rw [if_neg h]
    exact processFirstPacket_shape packet s

theorem processFirstPacket_snd (packet : RequestPacket) (s : ClientState) :
    (processFirstPacket packet s).2 =
      (urlDecode (separate_request_parameters packet.request_url).1).isSome := by
  cases hdec : urlDecode (separate_request_parameters packet.request_url).1 with
  | some dec => simp [processFirstPacket, hdec]
  | none => simp [processFirstPacket, hdec]

theorem sendLoop_handlerCalls : ∀ (ops : List IResponseOperation) (s : ClientState),
    (sendLoop ops s).handlerCalls = s.handlerCalls := by
  intro ops
  induction ops with
  | nil => intro s; rfl
  | cons op rest ih =>
    intro s
    simp only [sendLoop]
    split
    · rfl
    · split
      · rw [ih]
      · rfl

theorem reply_handlerCalls (p : IResponseOperation) (pf : Bool) (s : ClientState) :
    (reply p pf s).handlerCalls = s.handlerCalls := by
  simp only [reply]
  split <;> split <;> first | rw [send_first_part, sendLoop_handlerCalls] | rfl

theorem http_event_dispatch (pkt : RequestPacket) (s : ClientState)
    (hres : (firstPacketStep pkt s).2 = true)
    (hctx1 : (firstPacketStep pkt s).1.contextAttached = true) :
    http_event (some pkt) s =
      match translate_method pkt.request_method with
      | some m =>
        { (firstPacketStep pkt s).1 with
          handlerCalls := (firstPacketStep pkt s).1.handlerCalls ++
            [{ method := m,
               url := (firstPacketStep pkt s).1.requested_url,
               headers := (firstPacketStep pkt s).1.request_headers,
               parameters := (firstPacketStep pkt s).1.request_parameters,
               content := pkt.buffer,
               mime := (firstPacketStep pkt s).1.mime,
               first_fragment := !pkt.is_continuation,
               last_fragment := !pkt.is_continued }] }
      | none => reply methodNotAllowedResponse false (firstPacketStep pkt s).1 := by
  rw [http_event]
  simp only [hres, hctx1, if_true]

/-- Claim C5: the request method is translated by exact case-sensitive
matching into the closed set GET, POST, PUT, DELETE, HEAD; any other
method string enqueues a 405 response via reply with place_first = false
and the handler is not invoked; a method in the set invokes the handler
with method, url, headers, parameters, body fragment, MIME context and
fragment flags. -/
theorem method_translation_dispatch (s : ClientState) (pkt : RequestPacket)
    (hctx : s.contextAttached = true)
    (hres : (firstPacketStep pkt s).2 = true) :
    ((translate_method pkt.request_method).isSome = true ↔
      pkt.request_method ∈ ["GET", "POST", "PUT", "DELETE", "HEAD"]) ∧
    (translate_method pkt.request_method = none →
      http_event (some pkt) s =
        reply methodNotAllowedResponse false (firstPacketStep pkt s).1 ∧
      (http_event (some pkt) s).handlerCalls = s.handlerCalls) ∧
    (∀ m, translate_method pkt.request_method = some m →
      http_event (some pkt) s =
        { (firstPacketStep pkt s).1 with
          handlerCalls := (firstPacketStep pkt s).1.handlerCalls ++
            [{ method := m,
               url := (firstPacketStep pkt s).1.requested_url,
               headers := (firstPacketStep pkt s).1.request_headers,
               parameters := (firstPacketStep pkt s).1.request_parameters,
               content := pkt.buffer,
               mime := (firstPacketStep pkt s).1.mime,
               first_fragment := !pkt.is_continuation,
               last_fragment := !pkt.is_continued }] }) := by
  obtain ⟨rh, rp, ru, mi, rt, hshape⟩ := firstPacketStep_shape pkt s
  have hctx1 : (firstPacketStep pkt s).1.contextAttached = true := by
    rw [hshape]; exact hctx
  have hcalls : (firstPacketStep pkt s).1.handlerCalls = s.handlerCalls := by
    rw [hshape]
  refine ⟨?_, ?_, ?_⟩
  · unfold translate_method
    split_ifs with h1 h2 h3 h4 h5
    · simp [h1]
    · simp [h2]
    · simp [h3]
    · simp [h4]
    · simp [h5]
    · simp [h1, h2, h3, h4, h5]
  · intro hnone
    have he := http_event_dispatch pkt s hres hctx1
    rw [hnone] at he
    refine ⟨he, ?_⟩
    rw [he, reply_handlerCalls, hcalls]
  · intro m hm
    have he := http_event_dispatch pkt s hres hctx1
    rw [hm] at he
    exact he

/-- Claim C4: when percent-decoding of the request path fails on the
first fragment of a request, the fragment is silently dropped: the
handler is not invoked, nothing is enqueued, nothing is transmitted and
the connection is not closed. -/
theorem malformed_url_dropped (s : ClientState) (pkt : RequestPacket)
    (hfirst : pkt.is_continuation = false)
    (hfail : urlDecode (separate_request_parameters pkt.request_url).1 = none) :
    (http_event (some pkt) s).handlerCalls = s.handlerCalls ∧
    (http_event (some pkt) s).operations = s.operations ∧
    (http_event (some pkt) s).current_operation = s.current_operation ∧
    (http_event (some pkt) s).tx = s.tx ∧
    (http_event (some pkt) s).closed = s.closed := by
  have hsnd : (firstPacketStep pkt s).2 = false := by
    rw [firstPacketStep, if_neg (by simp [hfirst]), processFirstPacket_snd, hfail]
    rfl
  have hres : http_event (some pkt) s = (firstPacketStep pkt s).1 := by
    rw [http_event]
    simp only [hsnd]
    simp
  obtain ⟨rh, rp, ru, mi, rt, hshape⟩ := firstPacketStep_shape pkt s
  rw [hres, hshape]
  exact ⟨rfl, rfl, rfl, rfl, rfl⟩

/-- Claim C10: with no Request Context attached, an inbound HTTP fragment
with a successfully decoded URL has no effect: the handler is not invoked
and no 405 (nor anything else) is enqueued, transmitted, or closed. -/
theorem no_context_no_effect (s : ClientState) (pkt : RequestPacket)
    (hctx : s.contextAttached = false)
    (hdec : (firstPacketStep pkt s).2 = true) :
    (http_event (some pkt) s).handlerCalls = s.handlerCalls ∧
    (http_event (some pkt) s).operations = s.operations ∧
    (http_event (some pkt) s).current_operation = s.current_operation ∧
    (http_event (some pkt) s).tx = s.tx ∧
    (http_event (some pkt) s).closed = s.closed := by
  obtain ⟨rh, rp, ru, mi, rt, hshape⟩ := firstPacketStep_shape pkt s
  have hctx1 : (firstPacketStep pkt s).1.contextAttached = false := by
    rw [hshape]; exact hctx
  have hres : http_event (some pkt) s = (firstPacketStep pkt s).1 := by
    rw [http_event]
    simp only [hdec, hctx1]
    simp
  rw [hres, hshape]
  exact ⟨rfl, rfl, rfl, rfl, rfl⟩

def opErrorFree (p : IResponseOperation) : Prop :=
  ∀ c ∈ p.script, c.1 ≠ ResponseStatus.Error

instance (p : IResponseOperation) : Decidable (opErrorFree p) := by
  unfold opErrorFree
  infer_instance

def optErrorFree : Option IResponseOperation → Prop
  | none => True
  | some p => opErrorFree p

instance : (o : Option IResponseOperation) → Decidable (optErrorFree o)
  | none => Decidable.isTrue trivial
  | some p => inferInstanceAs (Decidable (opErrorFree p))

def opMeasure (p : IResponseOperation) : Nat := p.script.length + 1

def queueMeasure (l : List IResponseOperation) : Nat := (l.map opMeasure).sum

def curMeasure : Option IResponseOperation → Nat
  | none => 0
  | some p => opMeasure p

theorem queueMeasure_nil : queueMeasure [] = 0 := rfl

theorem queueMeasure_cons (a : IResponseOperation) (l : List IResponseOperation) :
    queueMeasure (a :: l) = opMeasure a + queueMeasure l := by
  simp [queueMeasure]

theorem queueMeasure_eq_zero {l : List IResponseOperation} (h : queueMeasure l = 0) :
    l = [] := by
  cases l with
  | nil => rfl
  | cons a t =>
    rw [queueMeasure_cons] at h
    exact absurd h (by simp [opMeasure])

theorem mapDropComm (k : Nat) (l : List IResponseOperation) :
    (l.drop k).map (fun p => p.id) = (l.map (fun p => p.id)).drop k := by
  induction l generalizing k with
  | nil => simp
  | cons a t ih =>
    cases k with
    | zero => simp
    | succ k2 =>
      simp only [List.drop_succ_cons, List.map_cons]
      exact ih k2

theorem sendLoop_run : ∀ (ops : List IResponseOperation) (s : ClientState),
    s.operations = ops → s.current_operation = none → s.closed = false →
    (∀ p ∈ ops, opErrorFree p) →
    ∃ k, (sendLoop ops s).closed = false ∧
      (sendLoop ops s).startedOps = s.startedOps ++ (ops.map (fun p => p.id)).take k ∧
      (sendLoop ops s).operations = ops.drop k ∧
      optErrorFree (sendLoop ops s).current_operation ∧
      ((sendLoop ops s).current_operation = none → ops.drop k = []) ∧
      curMeasure (sendLoop ops s).current_operation + queueMeasure (ops.drop k) ≤
        queueMeasure ops ∧
      (ops = [] ∨
        curMeasure (sendLoop ops s).current_operation + queueMeasure (ops.drop k) <
          queueMeasure ops) := by
  intro ops
  induction ops with
  | nil =>
    intro s hops hcur hcl hef
    refine ⟨0, hcl, by simp [sendLoop], by simpa [sendLoop] using hops, ?_, ?_, ?_, Or.inl rfl⟩
    · rw [sendLoop, hcur]
      exact trivial
    · intro _
      rfl
    · rw [sendLoop, hcur]
      simp [curMeasure, queueMeasure]
  | cons op rest ih =>
    intro s hops hcur hcl hef
    have hefop : opErrorFree op := hef op (by simp)
    cases hsc : op.script with
    | nil =>
      have hgd : getData op = ((ResponseStatus.EndOfData, []), op) := by
        rw [getData, hsc]
      have hstep : sendLoop (op :: rest) s =
          sendLoop rest
            { s with operations := rest, current_operation := none,
                     startedOps := s.startedOps ++ [op.id],
                     tx := s.tx ++ [if s.mode = Mode.HTTP then
                       HTTPPacket.response op.code "1.1" op.headers []
                     else HTTPPacket.data []] } := by
        simp [sendLoop, hgd]
      obtain ⟨k, k1, k2, k3, k4, k5, k6, k7⟩ :=
        ih ({ s with operations := rest, current_operation := none,
                     startedOps := s.startedOps ++ [op.id],
                     tx := s.tx ++ [if s.mode = Mode.HTTP then
                       HTTPPacket.response op.code "1.1" op.headers []
                     else HTTPPacket.data []] })
          rfl rfl hcl (fun p hp => hef p (by simp [hp]))
      rw [hstep]
      refine ⟨k + 1, k1, ?_, ?_, k4, ?_, ?_, ?_⟩
      · rw [k2]
        simp
      · rw [k3]
        rfl
      · intro hnone
        rw [List.drop_succ_cons]
        exact k5 hnone
      · rw [List.drop_succ_cons, queueMeasure_cons]
        omega
      · refine Or.inr ?_
        rw [List.drop_succ_cons, queueMeasure_cons]
        have hone : opMeasure op = 1 := by simp [opMeasure, hsc]
        omega
    | cons ch rest2 =>
      obtain ⟨st, d⟩ := ch
      have hst : st ≠ ResponseStatus.Error := by
        have hmem := hefop (st, d) (by rw [hsc]; simp)
        exact hmem
      have hgd : getData op = ((st, d), { op with script := rest2 }) := by
        rw [getData, hsc]
      have hop2 : opErrorFree { op with script := rest2 } := by
        intro x hx
        exact hefop x (by rw [hsc]; simp [hx])
      have hopm : opMeasure op = rest2.length + 2 := by simp [opMeasure, hsc]
      cases st with
      | Error => exact absurd rfl hst
      | EndOfData =>
        have hstep : sendLoop (op :: rest) s =
            sendLoop rest
              { s with operations := rest, current_operation := none,
                       startedOps := s.startedOps ++ [op.id],
                       tx := s.tx ++ [if s.mode = Mode.HTTP then
                         HTTPPacket.response op.code "1.1" op.headers d
                       else HTTPPacket.data d] } := by
          simp [sendLoop, hgd]
        obtain ⟨k, k1, k2, k3, k4, k5, k6, k7⟩ :=
          ih ({ s with operations := rest, current_operation := none,
                       startedOps := s.startedOps ++ [op.id],
                       tx := s.tx ++ [if s.mode = Mode.HTTP then
                         HTTPPacket.response op.code "1.1" op.headers d
                       else HTTPPacket.data d] })
            rfl rfl hcl (fun p hp => hef p (by simp [hp]))
        rw [hstep]
        refine ⟨k + 1, k1, ?_, ?_, k4, ?_, ?_, ?_⟩
        · rw [k2]
          simp
        · rw [k3]
          rfl
        · intro hnone
          rw [List.drop_succ_cons]
          exact k5 hnone
        · rw [List.drop_succ_cons, queueMeasure_cons]
          omega
        · refine Or.inr ?_
          rw [List.drop_succ_cons, queueMeasure_cons]
          omega
      | HasMoreData =>
        have hstep : sendLoop (op :: rest) s =
            { s with operations := rest,
                     current_operation := some { op with script := rest2 },
                     startedOps := s.startedOps ++ [op.id],
                     tx := s.tx ++ [if s.mode = Mode.HTTP then
                       HTTPPacket.response op.code "1.1" op.headers d
                     else HTTPPacket.data d] } := by
          simp [sendLoop, hgd]
        rw [hstep]
        refine ⟨1, hcl, by simp, rfl, hop2, ?_, ?_, ?_⟩
        · intro hnone
          cases hnone
        · rw [List.drop_succ_cons, List.drop_zero, queueMeasure_cons]
          simp [curMeasure, opMeasure, hsc]
        · refine Or.inr ?_
          rw [List.drop_succ_cons, List.drop_zero, queueMeasure_cons]
          simp [curMeasure, opMeasure, hsc]
      | LastData =>
        have hstep : sendLoop (op :: rest) s =
            { s with operations := rest,
                     current_operation := some { op with script := rest2 },
                     startedOps := s.startedOps ++ [op.id],
                     tx := s.tx ++ [if s.mode = Mode.HTTP then
                       HTTPPacket.response op.code "1.1" op.headers d
                     else HTTPPacket.data d] } := by
          simp [sendLoop, hgd]
        rw [hstep]
        refine ⟨1, hcl, by simp, rfl, hop2, ?_, ?_, ?_⟩
        · intro hnone
          cases hnone
        · rw [List.drop_succ_cons, List.drop_zero, queueMeasure_cons]
          simp [curMeasure, opMeasure, hsc]
        · refine Or.inr ?_
          rw [List.drop_succ_cons, List.drop_zero, queueMeasure_cons]
          simp [curMeasure, opMeasure, hsc]

theorem drain_run : ∀ (N : Nat) (s : ClientState),
    curMeasure s.current_operation + queueMeasure s.operations ≤ N →
    s.closed = false → optErrorFree s.current_operation →
    (∀ p ∈ s.operations, opErrorFree p) →
    ∃ n, (pumpN n s).startedOps = s.startedOps ++ s.operations.map (fun p => p.id) ∧
      (pumpN n s).operations = [] ∧
      (pumpN n s).current_operation = none ∧
      (pumpN n s).closed = false := by
  intro N
  induction N with
  | zero =>
    intro s hm hcl hef1 hef2
    have hcur : s.current_operation = none := by
      cases hcurx : s.current_operation with
      | none => rfl
      | some p =>
        rw [hcurx] at hm
        simp [curMeasure, opMeasure] at hm
    have hops : s.operations = [] := by
      apply queueMeasure_eq_zero
      omega
    exact ⟨0, by simp [pumpN, hops], by simp [pumpN, hops], by simp [pumpN, hcur],
      by simp [pumpN, hcl]⟩
  | succ N ih =>
    intro s hm hcl hef1 hef2
    cases hcur : s.current_operation with
    | none =>
      cases hops : s.operations with
      | nil =>
        exact ⟨0, by simp [pumpN, hops], by simp [pumpN, hops], by simp [pumpN, hcur],
          by simp [pumpN, hcl]⟩
      | cons op rest =>
        have hstep : onTransmitBufferEmpty s = sendLoop s.operations s := by
          rw [onTransmitBufferEmpty, hcur]
          rfl
        obtain ⟨k, k1, k2, k3, k4, k5, k6, k7⟩ :=
          sendLoop_run s.operations s rfl hcur hcl hef2
        have hstrict : curMeasure (sendLoop s.operations s).current_operation +
            queueMeasure (s.operations.drop k) < queueMeasure s.operations := by
          rcases k7 with h | h
          · rw [hops] at h; cases h
          · exact h
        have hmt : curMeasure (sendLoop s.operations s).current_operation +
            queueMeasure (sendLoop s.operations s).operations ≤ N := by
          rw [k3, hcur] at *
          simp only [curMeasure] at hm
          omega
        obtain ⟨n, n1, n2, n3, n4⟩ := ih (sendLoop s.operations s) hmt k1 k4
          (fun p hp => hef2 p (List.mem_of_mem_drop (k3 ▸ hp)))
        refine ⟨n + 1, ?_, ?_, ?_, ?_⟩
        · rw [pumpN, hstep, n1, k2, k3]
          rw [mapDropComm, List.append_assoc, List.take_append_drop, hops]
        · rw [pumpN, hstep, n2]
        · rw [pumpN, hstep, n3]
        · rw [pumpN, hstep, n4]
    | some c =>
      have hefc : opErrorFree c := by
        rw [hcur] at hef1
        exact hef1
      have hmc : curMeasure s.current_operation = c.script.length + 1 := by
        rw [hcur]
        simp [curMeasure, opMeasure]
      cases hsc : c.script with
      | nil =>
        have hgd : getData c = ((ResponseStatus.EndOfData, []), c) := by
          rw [getData, hsc]
        have hstep : onTransmitBufferEmpty s =
            sendLoop s.operations { s with current_operation := none } := by
          rw [onTransmitBufferEmpty, hcur]
          simp [hgd, send_first_part]
        obtain ⟨k, k1, k2, k3, k4, k5, k6, k7⟩ :=
          sendLoop_run s.operations { s with current_operation := none } rfl rfl hcl hef2
        have hmt : curMeasure
              (sendLoop s.operations { s with current_operation := none }).current_operation +
            queueMeasure
              (sendLoop s.operations { s with current_operation := none }).operations ≤ N := by
          rw [k3]
          rw [hmc, hsc] at hm
          simp at hm
          omega
        obtain ⟨n, n1, n2, n3, n4⟩ := ih _ hmt k1 k4
          (fun p hp => hef2 p (List.mem_of_mem_drop (k3 ▸ hp)))
        refine ⟨n + 1, ?_, ?_, ?_, ?_⟩
        · rw [pumpN, hstep, n1, k2, k3]
          rw [mapDropComm, List.append_assoc, List.take_append_drop]
        · rw [pumpN, hstep, n2]
        · rw [pumpN, hstep, n3]
        · rw [pumpN, hstep, n4]
      | cons ch rest2 =>
        obtain ⟨st, d⟩ := ch
        have hst : st ≠ ResponseStatus.Error := by
          have hmem := hefc (st, d) (by rw [hsc]; simp)
          simpa using hmem
        have hgd : getData c = ((st, d), { c with script := rest2 }) := by
          rw [getData, hsc]
        cases st with
        | Error => exact absurd rfl hst
        | EndOfData =>
          have hstep : onTransmitBufferEmpty s =
              sendLoop s.operations { s with current_operation := none } := by
            rw [onTransmitBufferEmpty, hcur]
            simp [hgd, send_first_part]
          obtain ⟨k, k1, k2, k3, k4, k5, k6, k7⟩ :=
            sendLoop_run s.operations { s with current_operation := none } rfl rfl hcl hef2
          have hmt : curMeasure
                (sendLoop s.operations { s with current_operation := none }).current_operation +
              queueMeasure
                (sendLoop s.operations { s with current_operation := none }).operations ≤ N := by
            rw [k3]
            rw [hmc, hsc] at hm
            simp at hm
            omega
          obtain ⟨n, n1, n2, n3, n4⟩ := ih _ hmt k1 k4
            (fun p hp => hef2 p (List.mem_of_mem_drop (k3 ▸ hp)))
          refine ⟨n + 1, ?_, ?_, ?_, ?_⟩
          · rw [pumpN, hstep, n1, k2, k3]
            rw [mapDropComm, List.append_assoc, List.take_append_drop]
          · rw [pumpN, hstep, n2]
          · rw [pumpN, hstep, n3]
          · rw [pumpN, hstep, n4]
        | HasMoreData =>
          have hstep : onTransmitBufferEmpty s =
              { s with current_operation := some { c with script := rest2 },
                       tx := s.tx ++ [HTTPPacket.data d] } := by
            rw [onTransmitBufferEmpty, hcur]
            simp [hgd]
          have hmt : curMeasure
                (some { c with script := rest2 }) + queueMeasure s.operations ≤ N := by
            rw [hmc, hsc] at hm
            simp [curMeasure, opMeasure] at hm ⊢
            omega
          have hef1t : optErrorFree (some { c with script := rest2 }) := by
            intro x hx
            exact hefc x (by rw [hsc]; simp [hx])
          obtain ⟨n, n1, n2, n3, n4⟩ := ih
            ({ s with current_operation := some { c with script := rest2 },
                      tx := s.tx ++ [HTTPPacket.data d] }) hmt hcl hef1t hef2
          refine ⟨n + 1, ?_, ?_, ?_, ?_⟩
          · rw [pumpN, hstep, n1]
          · rw [pumpN, hstep, n2]
          · rw [pumpN, hstep, n3]
          · rw [pumpN, hstep, n4]
        | LastData =>
          have hstep : onTransmitBufferEmpty s =
              { s with current_operation := some { c with script := rest2 },
                       tx := s.tx ++ [HTTPPacket.data d] } := by
            rw [onTransmitBufferEmpty, hcur]
            simp [hgd]
          have hmt : curMeasure
                (some { c with script := rest2 }) + queueMeasure s.operations ≤ N := by
            rw [hmc, hsc] at hm
            simp [curMeasure, opMeasure] at hm ⊢
            omega
          have hef1t : optErrorFree (some { c with script := rest2 }) := by
            intro x hx
            exact hefc x (by rw [hsc]; simp [hx])
          obtain ⟨n, n1, n2, n3, n4⟩ := ih
            ({ s with current_operation := some { c with script := rest2 },
                      tx := s.tx ++ [HTTPPacket.data d] }) hmt hcl hef1t hef2
          refine ⟨n + 1, ?_, ?_, ?_, ?_⟩
          · rw [pumpN, hstep, n1]
          · rw [pumpN, hstep, n2]
          · rw [pumpN, hstep, n3]
          · rw [pumpN, hstep, n4]

theorem with_keep_alive_script (s : ClientState) (p : IResponseOperation) :
    (with_keep_alive s p).script = p.script := by
  rw [with_keep_alive]
  split <;> rfl

theorem with_keep_alive_id (s : ClientState) (p : IResponseOperation) :
    (with_keep_alive s p).id = p.id := by
  rw [with_keep_alive]
  split <;> rfl

theorem opErrorFree_with_keep_alive (s : ClientState) (p : IResponseOperation)
    (h : opErrorFree p) : opErrorFree (with_keep_alive s p) := by
  intro x hx
  rw [with_keep_alive_script] at hx
  exact h x hx

/-- Claim C1: with an operation currently streaming, enqueuing P1 and P2
normally and then P3 with place_first = true leaves the current operation
untouched after every reply (no preemption) and yields queue
[P3, P1, P2]; draining the pump then starts them in exactly the order
P3, P1, P2. -/
theorem queue_priority_order (s : ClientState) (c p1 p2 p3 : IResponseOperation)
    (hcur : s.current_operation = some c) (hq : s.operations = [])
    (hcl : s.closed = false) (hc : opErrorFree c)
    (h1 : opErrorFree p1) (h2 : opErrorFree p2) (h3 : opErrorFree p3) :
    (reply p1 false s).current_operation = some c ∧
    (reply p2 false (reply p1 false s)).current_operation = some c ∧
    (reply p3 true (reply p2 false (reply p1 false s))).current_operation = some c ∧
    (reply p3 true (reply p2 false (reply p1 false s))).operations =
      [with_keep_alive s p3, with_keep_alive s p1, with_keep_alive s p2] ∧
    ∃ n,
      (pumpN n (reply p3 true (reply p2 false (reply p1 false s)))).startedOps =
        s.startedOps ++ [p3.id, p1.id, p2.id] ∧
      (pumpN n (reply p3 true (reply p2 false (reply p1 false s)))).operations = [] ∧
      (pumpN n (reply p3 true (reply p2 false (reply p1 false s)))).current_operation =
        none := by
  have e1 : reply p1 false s = { s with operations := [with_keep_alive s p1] } := by
    simp [reply, hcur, hq]
  have e2 : reply p2 false (reply p1 false s) =
      { s with operations := [with_keep_alive s p1, with_keep_alive s p2] } := by
    rw [e1]
    simp [reply, with_keep_alive, hcur]
  have e3 : reply p3 true (reply p2 false (reply p1 false s)) =
      { s with operations :=
          [with_keep_alive s p3, with_keep_alive s p1, with_keep_alive s p2] } := by
    rw [e2]
    simp [reply, with_keep_alive, hcur]
  refine ⟨by rw [e1]; exact hcur, by rw [e2]; exact hcur,
    by rw [e3]; exact hcur, by rw [e3], ?_⟩
  rw [e3]
  obtain ⟨n, n1, n2, n3, n4⟩ := drain_run
    (curMeasure (some c) + queueMeasure
      [with_keep_alive s p3, with_keep_alive s p1, with_keep_alive s p2])
    ({ s with operations :=
        [with_keep_alive s p3, with_keep_alive s p1, with_keep_alive s p2] })
    (by rw [hcur]) hcl (by rw [hcur]; exact hc)
    (by
      intro p hp
      simp at hp
      rcases hp with h | h | h <;> rw [h]
      · exact opErrorFree_with_keep_alive s p3 h3
      · exact opErrorFree_with_keep_alive s p1 h1
      · exact opErrorFree_with_keep_alive s p2 h2)
  refine ⟨n, ?_, n2, n3⟩
  rw [n1]
  simp [with_keep_alive_id]

/-- A neutral connection state used by the concrete witnesses. -/
def baseState : ClientState :=
  { mode := Mode.HTTP, operations := [], current_operation := none, tx := [],
    closed := false, receive_timeout := 30, contextAttached := true,
    ws_server := false, request_headers := [], request_parameters := [],
    requested_url := [], mime := 0, handlerCalls := [], wsHandlerCalls := [],
    startedOps := [] }

/-- A sample response producer used by the concrete witnesses. -/
def sampleOp (i : Nat) (script : List (ResponseStatus × List Nat)) : IResponseOperation :=
  { id := i, code := 200, headers := [], script := script }

/-- Busy producer occupying `current_operation` in several witnesses. -/
def wOp9 : IResponseOperation := sampleOp 9 [(ResponseStatus.LastData, [7])]

/-- First normally-enqueued witness producer. -/
def wOp1 : IResponseOperation := sampleOp 1 [(ResponseStatus.EndOfData, [1])]

/-- Second normally-enqueued witness producer, with two chunks. -/
def wOp2 : IResponseOperation :=
  sampleOp 2 [(ResponseStatus.HasMoreData, [2]), (ResponseStatus.LastData, [3])]

/-- Front-priority witness producer. -/
def wOp3 : IResponseOperation := sampleOp 3 [(ResponseStatus.EndOfData, [])]

/-- A busy connection: one operation streaming, empty queue. -/
def wC1state : ClientState := { baseState with current_operation := some wOp9 }

/-- Witness for claim C1 at a concrete busy connection. -/
theorem queue_priority_order_witness :
    (wC1state.current_operation = some wOp9 ∧ wC1state.operations = [] ∧
      wC1state.closed = false ∧ opErrorFree wOp9 ∧ opErrorFree wOp1 ∧
      opErrorFree wOp2 ∧ opErrorFree wOp3) ∧
    ((reply wOp1 false wC1state).current_operation = some wOp9 ∧
      (reply wOp2 false (reply wOp1 false wC1state)).current_operation = some wOp9 ∧
      (reply wOp3 true (reply wOp2 false (reply wOp1 false wC1state))).current_operation =
        some wOp9 ∧
      (reply wOp3 true (reply wOp2 false (reply wOp1 false wC1state))).operations =
        [with_keep_alive wC1state wOp3, with_keep_alive wC1state wOp1,
          with_keep_alive wC1state wOp2] ∧
      ∃ n,
        (pumpN n (reply wOp3 true (reply wOp2 false
            (reply wOp1 false wC1state)))).startedOps =
          wC1state.startedOps ++ [wOp3.id, wOp1.id, wOp2.id] ∧
        (pumpN n (reply wOp3 true (reply wOp2 false
            (reply wOp1 false wC1state)))).operations = [] ∧
        (pumpN n (reply wOp3 true (reply wOp2 false
            (reply wOp1 false wC1state)))).current_operation = none) :=
  ⟨⟨by decide, by decide, by decide, by decide, by decide, by decide, by decide⟩,
    queue_priority_order wC1state wOp9 wOp1 wOp2 wOp3 (by decide) (by decide)
      (by decide) (by decide) (by decide) (by decide) (by decide)⟩

/-- First immediately-complete queued witness producer. -/
def wQ1 : IResponseOperation := sampleOp 11 [(ResponseStatus.EndOfData, [1])]

/-- Second immediately-complete queued witness producer. -/
def wQ2 : IResponseOperation := sampleOp 12 [(ResponseStatus.EndOfData, [2])]

/-- Idle connection with two immediately-complete producers queued. -/
def wC2state : ClientState := { baseState with operations := [wQ1, wQ2] }

/-- Witness for claim C2: both queued producers drain in one event. -/
theorem immediate_completion_chain_witness :
    (wC2state.current_operation = none ∧ wC2state.operations = [wQ1, wQ2] ∧
      wQ1.script = (ResponseStatus.EndOfData, [1]) :: [] ∧
      wQ2.script = (ResponseStatus.EndOfData, [2]) :: []) ∧
    onTransmitBufferEmpty wC2state =
      { wC2state with operations := [], current_operation := none,
                      startedOps := wC2state.startedOps ++ [wQ1.id, wQ2.id],
                      tx := wC2state.tx ++
                        [(if wC2state.mode = Mode.HTTP then
                            HTTPPacket.response wQ1.code "1.1" wQ1.headers [1]
                          else HTTPPacket.data [1]),
                         (if wC2state.mode = Mode.HTTP then
                            HTTPPacket.response wQ2.code "1.1" wQ2.headers [2]
                          else HTTPPacket.data [2])] } :=
  ⟨⟨by decide, by decide, by decide, by decide⟩,
    immediate_completion_chain wC2state wQ1 wQ2 [1] [2] [] [] (by decide)
      (by decide) (by decide) (by decide)⟩

/-- A producer whose first chunk reports Error. -/
def wErrOp : IResponseOperation :=
  sampleOp 21 [(ResponseStatus.Error, [5]), (ResponseStatus.LastData, [6])]

/-- Connection currently streaming the erroring producer. -/
def wC6state1 : ClientState := { baseState with current_operation := some wErrOp }

/-- Idle connection with the erroring producer queued ahead of another. -/
def wC6state2 : ClientState := { baseState with operations := [wErrOp, wQ1] }

/-- Witness for claim C6 in both the pump and the send_first_part path. -/
theorem producer_error_closes_witness :
    (wC6state1.current_operation = some wErrOp ∧
      wErrOp.script = (ResponseStatus.Error, [5]) :: [(ResponseStatus.LastData, [6])] ∧
      wC6state2.current_operation = none ∧
      wC6state2.operations = wErrOp :: [wQ1]) ∧
    ((onTransmitBufferEmpty wC6state1 =
      { wC6state1 with
        current_operation := some { wErrOp with script := [(ResponseStatus.LastData, [6])] },
        closed := true }) ∧
     (onTransmitBufferEmpty wC6state2 =
      { wC6state2 with
        operations := [wQ1],
        current_operation := some { wErrOp with script := [(ResponseStatus.LastData, [6])] },
        startedOps := wC6state2.startedOps ++ [wErrOp.id],
        closed := true })) :=
  ⟨⟨by decide, by decide, by decide, by decide⟩,
    producer_error_closes wC6state1 wErrOp [5] [(ResponseStatus.LastData, [6])]
      (by decide) (by decide) wC6state2 wErrOp [wQ1] [5]
      [(ResponseStatus.LastData, [6])] (by decide) (by decide) (by decide)⟩

/-- Producer whose first chunk reports EndOfData with bytes attached. -/
def wEODOp : IResponseOperation := sampleOp 33 [(ResponseStatus.EndOfData, [7])]

/-- Producer whose first chunk reports HasMoreData. -/
def wHMOp : IResponseOperation :=
  sampleOp 31 [(ResponseStatus.HasMoreData, [4]), (ResponseStatus.LastData, [5])]

/-- Producer whose first chunk reports LastData. -/
def wLDOp : IResponseOperation := sampleOp 32 [(ResponseStatus.LastData, [6])]

/-- Connection streaming the EndOfData producer with an empty queue. -/
def wC9s1 : ClientState := { baseState with current_operation := some wEODOp }

/-- Connection streaming the HasMoreData producer. -/
def wC9s2 : ClientState := { baseState with current_operation := some wHMOp }

/-- Connection streaming the LastData producer. -/
def wC9s3 : ClientState := { baseState with current_operation := some wLDOp }

/-- Idle connection with the EndOfData producer queued. -/
def wC9s4 : ClientState := { baseState with operations := [wEODOp] }

/-- Witness for claim C9 across all four pump outcomes. -/
theorem pump_end_of_data_discard_witness :
    (wC9s1.current_operation = some wEODOp ∧ wC9s1.operations = [] ∧
      wEODOp.script = (ResponseStatus.EndOfData, [7]) :: [] ∧
      wC9s2.current_operation = some wHMOp ∧
      wHMOp.script = (ResponseStatus.HasMoreData, [4]) :: [(ResponseStatus.LastData, [5])] ∧
      wC9s3.current_operation = some wLDOp ∧
      wLDOp.script = (ResponseStatus.LastData, [6]) :: [] ∧
      wC9s4.current_operation = none ∧ wC9s4.operations = [wEODOp]) ∧
    ((onTransmitBufferEmpty wC9s1 = { wC9s1 with current_operation := none }) ∧
      (onTransmitBufferEmpty wC9s2 =
        { wC9s2 with
          current_operation := some { wHMOp with script := [(ResponseStatus.LastData, [5])] },
          tx := wC9s2.tx ++ [HTTPPacket.data [4]] }) ∧
      (onTransmitBufferEmpty wC9s3 =
        { wC9s3 with
          current_operation := some { wLDOp with script := [] },
          tx := wC9s3.tx ++ [HTTPPacket.data [6]] }) ∧
      (onTransmitBufferEmpty wC9s4 =
        { wC9s4 with
          operations := [], current_operation := none,
          startedOps := wC9s4.startedOps ++ [wEODOp.id],
          tx := wC9s4.tx ++
            [if wC9s4.mode = Mode.HTTP then
               HTTPPacket.response wEODOp.code "1.1" wEODOp.headers [7]
             else HTTPPacket.data [7]] })) :=
  ⟨⟨by decide, by decide, by decide, by decide, by decide, by decide, by decide,
      by decide, by decide⟩,
    pump_end_of_data_discard wC9s1 wEODOp [7] [] (by decide) (by decide) (by decide)
      wC9s2 wHMOp [4] [(ResponseStatus.LastData, [5])] (by decide) (by decide)
      wC9s3 wLDOp [6] [] (by decide) (by decide)
      wC9s4 wEODOp [7] [] (by decide) (by decide) (by decide)⟩

/-- Witness for claim C8 on a busy HTTP connection with a 30 second receive
timeout. -/
theorem keep_alive_headers_witness :
    (wC1state.current_operation = some wOp9) ∧
    ((wC1state.mode = Mode.HTTP → 0 < wC1state.receive_timeout →
      headerLookup (with_keep_alive wC1state wQ1).headers CONNECTION =
        some "keep-alive" ∧
      headerLookup (with_keep_alive wC1state wQ1).headers KEEP_ALIVE =
        some ("timeout=" ++ toString wC1state.receive_timeout) ∧
      (reply wQ1 false wC1state).operations =
        wC1state.operations ++ [with_keep_alive wC1state wQ1] ∧
      (reply wQ1 true wC1state).operations =
        with_keep_alive wC1state wQ1 :: wC1state.operations) ∧
    (wC1state.mode = Mode.Websocket →
      with_keep_alive wC1state wQ1 = wQ1 ∧
      (reply wQ1 false wC1state).operations = wC1state.operations ++ [wQ1] ∧
      (reply wQ1 true wC1state).operations = wQ1 :: wC1state.operations)) :=
  ⟨by decide, keep_alive_headers wC1state wQ1 wOp9 (by decide)⟩

/-- Busy WebSocket-mode connection. -/
def wWSstate : ClientState :=
  { baseState with mode := Mode.Websocket, current_operation := some wOp9 }

/-- An inbound WebSocket Ping frame. -/
def wPingPkt : RequestPacket :=
  { is_continuation := false, is_continued := false, headers := [],
    request_url := [], request_method := "", buffer := [],
    ws_control_code := 9, data := [] }

/-- Witness for claim C7 at a Ping frame on a busy WebSocket connection. -/
theorem websocket_dispatch_witness :
    (wWSstate.mode = Mode.Websocket ∧ wWSstate.current_operation = some wOp9) ∧
    ((wPingPkt.ws_control_code = OpCode.Close.code →
      onDataAvailable (some wPingPkt) wWSstate = { wWSstate with closed := true }) ∧
    (wPingPkt.ws_control_code = OpCode.Ping.code →
      onDataAvailable (some wPingPkt) wWSstate =
        reply (WSResponse OpCode.Pong) true wWSstate ∧
      (onDataAvailable (some wPingPkt) wWSstate).operations =
        WSResponse OpCode.Pong :: wWSstate.operations) ∧
    (OpCode.Close.code ≤ wPingPkt.ws_control_code →
      wPingPkt.ws_control_code ≠ OpCode.Close.code →
      wPingPkt.ws_control_code ≠ OpCode.Ping.code →
      onDataAvailable (some wPingPkt) wWSstate = wWSstate) ∧
    (wPingPkt.ws_control_code < OpCode.Close.code → wWSstate.ws_server = true →
      onDataAvailable (some wPingPkt) wWSstate =
        { wWSstate with wsHandlerCalls := wWSstate.wsHandlerCalls ++
            [(!wPingPkt.is_continuation, !wPingPkt.is_continued,
              wPingPkt.ws_control_code == OpCode.Text.code, wPingPkt.data)] }) ∧
    (wPingPkt.ws_control_code < OpCode.Close.code → wWSstate.ws_server = false →
      onDataAvailable (some wPingPkt) wWSstate = wWSstate)) :=
  ⟨⟨by decide, by decide⟩,
    websocket_dispatch wWSstate wPingPkt (by decide) wOp9 (by decide)⟩

/-- A continuation fragment carrying the unsupported method `PATCH`. -/
def wPatchPkt : RequestPacket :=
  { is_continuation := true, is_continued := false, headers := [],
    request_url := "/a".toList, request_method := "PATCH", buffer := [1, 2],
    ws_control_code := 0, data := [] }

/-- Witness for claim C5 at a `PATCH` request fragment. -/
theorem method_translation_dispatch_witness :
    (baseState.contextAttached = true ∧
      (firstPacketStep wPatchPkt baseState).2 = true) ∧
    (((translate_method wPatchPkt.request_method).isSome = true ↔
      wPatchPkt.request_method ∈ ["GET", "POST", "PUT", "DELETE", "HEAD"]) ∧
    (translate_method wPatchPkt.request_method = none →
      http_event (some wPatchPkt) baseState =
        reply methodNotAllowedResponse false (firstPacketStep wPatchPkt baseState).1 ∧
      (http_event (some wPatchPkt) baseState).handlerCalls = baseState.handlerCalls) ∧
    (∀ m, translate_method wPatchPkt.request_method = some m →
      http_event (some wPatchPkt) baseState =
        { (firstPacketStep wPatchPkt baseState).1 with
          handlerCalls := (firstPacketStep wPatchPkt baseState).1.handlerCalls ++
            [{ method := m,
               url := (firstPacketStep wPatchPkt baseState).1.requested_url,
               headers := (firstPacketStep wPatchPkt baseState).1.request_headers,
               parameters := (firstPacketStep wPatchPkt baseState).1.request_parameters,
               content := wPatchPkt.buffer,
               mime := (firstPacketStep wPatchPkt baseState).1.mime,
               first_fragment := !wPatchPkt.is_continuation,
               last_fragment := !wPatchPkt.is_continued }] })) :=
  ⟨⟨by decide, by decide⟩,
    method_translation_dispatch baseState wPatchPkt (by decide) (by decide)⟩

/-- A first fragment whose request path holds the malformed escape `%2`. -/
def wBadPkt : RequestPacket :=
  { is_continuation := false, is_continued := false, headers := [],
    request_url := "/x%2".toList, request_method := "GET", buffer := [],
    ws_control_code := 0, data := [] }

/-- Witness for claim C4 at the spec's own malformed target `/x%2`. -/
theorem malformed_url_dropped_witness :
    (wBadPkt.is_continuation = false ∧
      urlDecode (separate_request_parameters wBadPkt.request_url).1 = none) ∧
    ((http_event (some wBadPkt) baseState).handlerCalls = baseState.handlerCalls ∧
      (http_event (some wBadPkt) baseState).operations = baseState.operations ∧
      (http_event (some wBadPkt) baseState).current_operation =
        baseState.current_operation ∧
      (http_event (some wBadPkt) baseState).tx = baseState.tx ∧
      (http_event (some wBadPkt) baseState).closed = baseState.closed) :=
  ⟨⟨by decide, by decide⟩,
    malformed_url_dropped baseState wBadPkt (by decide) (by decide)⟩

/-- Connection with no Request Context attached. -/
def wNoCtxState : ClientState := { baseState with contextAttached := false }

/-- A supported-method fragment with a cleanly decodable target. -/
def wGetPkt : RequestPacket :=
  { is_continuation := false, is_continued := false, headers := [],
    request_url := "/ok".toList, request_method := "GET", buffer := [],
    ws_control_code := 0, data := [] }

/-- Witness for claim C10 at a decodable `GET` fragment without a context. -/
theorem no_context_no_effect_witness :
    (wNoCtxState.contextAttached = false ∧
      (firstPacketStep wGetPkt wNoCtxState).2 = true) ∧
    ((http_event (some wGetPkt) wNoCtxState).handlerCalls =
        wNoCtxState.handlerCalls ∧
      (http_event (some wGetPkt) wNoCtxState).operations = wNoCtxState.operations ∧
      (http_event (some wGetPkt) wNoCtxState).current_operation =
        wNoCtxState.current_operation ∧
      (http_event (some wGetPkt) wNoCtxState).tx = wNoCtxState.tx ∧
      (http_event (some wGetPkt) wNoCtxState).closed = wNoCtxState.closed) :=
  ⟨⟨by decide, by decide⟩,
    no_context_no_effect wNoCtxState wGetPkt (by decide) (by decide)⟩
